import Mathlib

/-!
# Webhook gateway of lighthouse-githubapp (`pkg/hook/handle_webhook.go`)

A shallow embedding of `handleWebHookRequests` and `retry`.

* The handler is embedded as a function from the request and the outcomes of
  its collaborators (SCM client factory, webhook parser, installation handler,
  general handler, clock, random source) to the list of actions it performs, in
  program order.
* Durations and clock readings are nanoseconds, as in Go's `time.Duration`.
* An `error` value is identified with its `Error()` text.
-/

namespace Hook

/-- An `error` value, identified with the text of `err.Error()`. -/
abbrev Error := String

/-- One byte of a request body. -/
abbrev Byte := Nat

/-- The field `scm.Repository.FullName`, the only one the handler reads. -/
structure Repository where
  FullName : String
  deriving DecidableEq

/-- The field `scm.Installation.ID` (an `int64`, only compared with zero). -/
structure Installation where
  ID : Int
  deriving DecidableEq

/-- The field `scm.InstallationRef.ID` (an `int64`, only compared with zero). -/
structure InstallationRef where
  ID : Int
  deriving DecidableEq

/-- The type `scm.InstallationHook`: its `Installation` field, a pointer
(`none` for nil), and the values of its `Repository()` and `Kind()` methods. -/
structure InstallationHook where
  Installation : Option Installation
  repository : Repository
  kind : String
  deriving DecidableEq

/-- A non-nil `scm.Webhook`: either the `*scm.InstallationHook` variant, or any
other variant, given by the values of `Kind()`, `Repository()` and
`GetInstallationRef()` (`none` for a nil reference). -/
inductive Webhook where
  | installation (hook : InstallationHook)
  | general (kind : String) (repository : Repository) (installRef : Option InstallationRef)
  deriving DecidableEq

/-- The method `webhook.Repository()`. -/
def Webhook.Repository : Webhook → Repository
  | .installation h => h.repository
  | .general _ r _ => r

/-- The method `webhook.Kind()`. -/
def Webhook.Kind : Webhook → String
  | .installation h => h.kind
  | .general k _ _ => k

/-- The request context: `doneAt` is the clock reading at which it is cancelled
(`none` when it never is). -/
structure Context where
  doneAt : Option Nat
  deriving DecidableEq

/-- A request body as an `io.ReadCloser`: `data` is what reading to the end
yields, `readErr` the error of `ioutil.ReadAll`, `closeErr` that of `Close`. -/
structure Body where
  data : List Byte
  readErr : Option Error
  closeErr : Option Error
  deriving DecidableEq

/-- The reader `ioutil.NopCloser(bytes.NewBuffer(b))`. -/
def Body.nopCloser (b : List Byte) : Body :=
  { data := b, readErr := none, closeErr := none }

/-- The parts of `*http.Request` the handler uses; `Header` is `r.Header.Get`. -/
structure Request where
  Method : String
  Header : String → String
  Body : Body
  ctx : Context

/-- The constant `http.MethodPost`. -/
def MethodPost : String := "POST"

/-- The constant `http.StatusInternalServerError`. -/
def StatusInternalServerError : Nat := 500

/-- Log levels of the structured logger. -/
inductive Level where
  | debug | info | warn | error
  deriving DecidableEq

/-- A value attached to a log entry or passed as a format argument. -/
inductive Value where
  | str (s : String)
  | int (i : Int)
  | duration (d : Int)
  | hook (w : Webhook)
  deriving DecidableEq

/-- A logger entry `l`: the fields attached so far. -/
abbrev Fields := List (String × Value)

/-- What `handleWebHookRequests` does, one constructor per call it makes, and
`nilDereference` for the run-time panic of reading a field through a nil
pointer, which ends the run. -/
inductive Action where
  | log (level : Level) (fields : Fields) (format : String) (args : List Value)
  | nilDereference
  | getIndex
  | createSCMClient (kind : String)
  | readAll
  | close
  | parse (body : Body)
  | onInstallHook (ctx : Context) (l : Fields) (hook : InstallationHook)
  | onGeneralHook (call startedAt endedAt : Nat) (ctx : Context) (l : Fields)
      (installRef : InstallationRef) (webhook : Webhook) (delivery : String)
      (bodyBytes : List Byte)
  | responseHTTPError (statusCode : Nat) (response : String) (args : List Value)
  | writeResult (l : Fields) (message : String)
  deriving DecidableEq

/-! ## `retry` and the backoff package it calls -/

/-- Modelled from the spec: the package `github.com/cenkalti/backoff` is not
under `src/`. The default `InitialInterval` of `NewExponentialBackOff()`, 500ms
(the "initial interval" of the spec's exponential curve). -/
def DefaultInitialInterval : Nat := 500000000

/-- Modelled from the spec: the package `github.com/cenkalti/backoff` is not
under `src/`. The default `MaxInterval` of `NewExponentialBackOff()`, 60s, the
cap of the exponential curve. -/
def DefaultMaxInterval : Nat := 60000000000

/-- Modelled from the spec: the package `github.com/cenkalti/backoff` is not
under `src/`. The step of the exponential curve ("delay grows geometrically with
a multiplicative factor"), with the default `Multiplier` 1.5: the interval
becomes `MaxInterval` once `currentInterval >= MaxInterval / Multiplier`, and
`currentInterval * Multiplier` otherwise. -/
def incrementCurrentInterval (currentInterval : Nat) : Nat :=
  if DefaultMaxInterval * 2 ≤ currentInterval * 3 then DefaultMaxInterval
  else currentInterval * 3 / 2

/-- Modelled from the spec: the package `github.com/cenkalti/backoff` is not
under `src/`. The jitter ("typically with added jitter") with the default
`RandomizationFactor` 0.5: for a random sample `random / 2^53` of `[0, 1)` the
delay is `min + sample * (max - min + 1)` truncated, where
`min = currentInterval - 0.5 * currentInterval` and
`max = currentInterval + 0.5 * currentInterval`; in exact arithmetic. -/
def getRandomValueFromInterval (random currentInterval : Nat) : Nat :=
  (currentInterval * 2 ^ 53 + 2 * (random % 2 ^ 53) * (currentInterval + 1)) / 2 ^ 54

/-- Modelled from the spec: the package `github.com/cenkalti/backoff` is not
under `src/`. `NextBackOff`: `none` is `Stop`, returned "once the cumulative
elapsed time since the first attempt exceeds `maxElapsedTime`" (a
`MaxElapsedTime` of zero disables the bound); otherwise the jittered delay. -/
def NextBackOff (MaxElapsedTime : Int) (elapsed random currentInterval : Nat) : Option Nat :=
  if MaxElapsedTime ≠ 0 ∧ MaxElapsedTime < (elapsed : Int) then none
  else some (getRandomValueFromInterval random currentInterval)

/-- The clock and the random source seen by one run of `retry`: `cost k` is the
time from the moment call `k` of the operation may start to its return, and
`random k` the sample drawn for the `k`-th delay. -/
structure RetryEnv where
  cost : Nat → Nat
  random : Nat → Nat

/-- What one run of `retry` does. Times are elapsed nanoseconds since the
backoff was reset, just before the first call. -/
inductive RetryEvent where
  | attempt (call startedAt endedAt : Nat) (err : Option Error)
  | notify (err : Error) (delay : Nat)
  deriving DecidableEq

/-- The outcome of a run of `retry`: the returned error (`none` for nil) and
what happened, in order. -/
structure RetryRun where
  result : Option Error
  events : List RetryEvent
  deriving DecidableEq

/-- Modelled from the spec: the package `github.com/cenkalti/backoff` is not
under `src/`. The loop of `backoff.RetryNotify`: "repeatedly invokes `attempt`";
success returns at once; on failure it asks for the next delay, returns the
last error on `Stop`, and otherwise "invokes `onBackoff` ... before sleeping".
`f call` is the result of the `call`-th invocation of the operation. `none` is
returned when `fuel` iterations do not reach a return. -/
def RetryNotify (MaxElapsedTime : Int) (f : Nat → Option Error) (env : RetryEnv) :
    (fuel call now currentInterval : Nat) → Option RetryRun
  | 0, _, _, _ => none
  | fuel + 1, call, now, currentInterval =>
    let ended := now + env.cost call
    match f call with
    | none => some ⟨none, [.attempt call now ended none]⟩
    | some err =>
      match NextBackOff MaxElapsedTime ended (env.random call) currentInterval with
      | none => some ⟨some err, [.attempt call now ended (some err)]⟩
      | some next =>
        (RetryNotify MaxElapsedTime f env fuel (call + 1) (ended + next)
            (incrementCurrentInterval currentInterval)).map
          fun run => ⟨run.result,
            .attempt call now ended (some err) :: .notify err next :: run.events⟩

/-- The function `retry`: a new exponential backoff with the default settings
and the given `MaxElapsedTime`, reset, then `backoff.RetryNotify`. The
notifications `n` receives are the `notify` events of the run. -/
def retry (maxElapsedTime : Int) (f : Nat → Option Error) (env : RetryEnv) (fuel : Nat) :
    Option RetryRun :=
  RetryNotify maxElapsedTime f env fuel 0 0 DefaultInitialInterval

/-! ## The handler -/

/-- The receiver `o *HookOptions` with its collaborators, each given by what it
returns: `createSCMClient` by its error, `Parse` (for
`scmClient.Webhooks.Parse(r, o.secretFn)`) by the webhook (`none` for nil) and
the error, `onInstallHook` by its error, and `onGeneralHook` by the error of its
`call`-th invocation. `env` is the clock and random source of `retry`. -/
structure HookOptions where
  createSCMClient : String → Option Error
  Parse : Request → Option Webhook × Option Error
  onInstallHook : Context → Fields → InstallationHook → Option Error
  onGeneralHook : Nat → Context → Fields → InstallationRef → Webhook → String →
    List Byte → Option Error
  env : RetryEnv

/-- The action of the handler for one event of the `retry` run: a call of the
operation is a call of `onGeneralHook` with the arguments of the closure, a
notification is the `Warnf` of the notify closure. -/
def retryAction (ctx : Context) (l : Fields) (installRef : InstallationRef) (webhook : Webhook)
    (delivery : String) (bodyBytes : List Byte) : RetryEvent → Action
  | .attempt call startedAt endedAt _ =>
    .onGeneralHook call startedAt endedAt ctx l installRef webhook delivery bodyBytes
  | .notify e d =>
    .log .warn l "onGeneralHook failed with '%s', backing off for %s" [.str e, .duration d]

/-- The method `handleWebHookRequests`: the actions it performs on request `r`,
in order. `none` only when `retry` does not return within `fuel` iterations.
The expression `installHook.Installation.ID` of line 70 reads through the
pointer `Installation` without a nil check: on nil the run ends there. -/
def handleWebHookRequests (o : HookOptions) (fuel : Nat) (r : Request) : Option (List Action) :=
  if r.Method ≠ MethodPost then
    some [.log .debug [("method", .str r.Method)] "invalid http method so returning index" [],
      .getIndex]
  else
  let t1 : List Action := [.log .debug [] "about to parse webhook" [], .createSCMClient ""]
  match o.createSCMClient "" with
  | some err =>
    some (t1 ++ [.log .error [] "failed to create SCM scmClient: %s" [.str err],
      .responseHTTPError StatusInternalServerError
        ("500 Internal Server Error: Failed to parse webhook: " ++ err) []])
  | none =>
  let t2 := t1 ++ [.readAll]
  match r.Body.readErr with
  | some err =>
    some (t2 ++ [.log .error [] "failed to Read Body: %s" [.str err],
      .responseHTTPError StatusInternalServerError
        ("500 Internal Server Error: Read Body: " ++ err) []])
  | none =>
  let bodyBytes := r.Body.data
  let t3 := t2 ++ [.close]
  match r.Body.closeErr with
  | some err =>
    some (t3 ++ [.log .error [] "failed to Close Body: %s" [.str err],
      .responseHTTPError StatusInternalServerError
        ("500 Internal Server Error: Read Close: " ++ err) []])
  | none =>
  let r1 : Request := { r with Body := Body.nopCloser bodyBytes }
  let t4 := t3 ++ [.parse r1.Body]
  match o.Parse r1 with
  | (_, some err) =>
    some (t4 ++ [.log .warn [] "failed to parse webhook: %s" [.str err],
      .responseHTTPError StatusInternalServerError
        ("500 Internal Server Error: Failed to parse webhook: " ++ err) []])
  | (none, none) =>
    some (t4 ++ [.log .error [] "no webhook was parsed" [],
      .responseHTTPError StatusInternalServerError
        "500 Internal Server Error: No webhook could be parsed" []])
  | (some webhook, none) =>
  let repository := webhook.Repository
  let l : Fields := [("FullName", .str repository.FullName), ("Webhook", .str webhook.Kind)]
  let t5 := t4 ++ [.log .info l "got hook %s" [.str webhook.Kind]]
  match webhook with
  | .installation installHook =>
    match installHook.Installation with
    | none => some (t5 ++ [.nilDereference])
    | some installation =>
    if installation.ID = 0 then
      some (t5 ++ [.responseHTTPError StatusInternalServerError
        "500 Internal Server Error: missing installation ID" []])
    else
      let l1 := l ++ [("Installation", .int installation.ID)]
      let t6 := t5 ++ [.log .info l1 "invoking Installation handler" [],
        .onInstallHook r1.ctx l1 installHook]
      match o.onInstallHook r1.ctx l1 installHook with
      | some err =>
        some (t6 ++ [.responseHTTPError StatusInternalServerError
          "500 Internal Server Error: %s" [.str err]])
      | none => some (t6 ++ [.writeResult l1 "OK"])
  | .general _ _ installRef? =>
    let missing : Option (List Action) :=
      some (t5 ++ [.log .error (l ++ [("Hook", .hook webhook)])
          "no installation reference was passed for webhook" [],
        .responseHTTPError StatusInternalServerError
          "500 Internal Server Error: No installation in webhook" []])
    match installRef? with
    | none => missing
    | some installRef =>
      if installRef.ID = 0 then missing else
      let githubDeliveryEvent := r1.Header "X-GitHub-Delivery"
      let duration : Int := 1000000000 * 30
      match retry duration
          (fun call => o.onGeneralHook call r1.ctx l installRef webhook githubDeliveryEvent
            bodyBytes) o.env fuel with
      | none => none
      | some run =>
        let t6 := t5 ++ run.events.map
          (retryAction r1.ctx l installRef webhook githubDeliveryEvent bodyBytes)
        let t7 := match run.result with
          | some err =>
            t6 ++ [.log .error (l ++ [("error", .str err)])
                "failed to process webhook after %s seconds for '%s'"
                [.duration duration, .str repository.FullName],
              .responseHTTPError StatusInternalServerError
                "500 Internal Server Error: %s" [.str err]]
          | none => t6
        some (t7 ++ [.writeResult l "OK"])

/-! ## Responses -/

/-- A response written to the `http.ResponseWriter`: the index output, or a
status with a body, the body being a text and the arguments to format into it. -/
inductive Response where
  | index
  | http (status : Nat) (body : String) (args : List Value)
  deriving DecidableEq

/-- Modelled from the spec: `getIndex`, `responseHTTPError` and `writeResult`
are not under `src/`. Each writes one response: `getIndex` the "liveness/index"
output, `responseHTTPError` the given status "with a body describing the
failure", and `writeResult` "HTTP 200" with the given body. -/
def Action.response : Action → Option Response
  | .getIndex => some .index
  | .responseHTTPError statusCode response args => some (.http statusCode response args)
  | .writeResult _ message => some (.http 200 message [])
  | _ => none

/-- The responses written by a run, in order. -/
def responses (t : List Action) : List Response := t.filterMap Action.response

/-- The status code of a response (`none` for the index output, whose status
the handler does not choose). -/
def Response.status : Response → Option Nat
  | .index => none
  | .http s _ _ => some s

/-! ## Observations on a run -/

/-- The calls of the installation handler in a run. -/
def installCalls (t : List Action) : List Action :=
  t.filter fun a => match a with
    | .onInstallHook .. => true
    | _ => false

/-- The calls of the general handler in a run. They are the attempts of
`retry`, whose every run starts with one. -/
def generalCalls (t : List Action) : List Action :=
  t.filter fun a => match a with
    | .onGeneralHook .. => true
    | _ => false

/-- The bodies handed to the webhook parser in a run. -/
def parsedBodies (t : List Action) : List Body :=
  t.filterMap fun a => match a with
    | .parse b => some b
    | _ => none

/-- The raw payloads handed to the general handler in a run. -/
def payloads (t : List Action) : List (List Byte) :=
  t.filterMap fun a => match a with
    | .onGeneralHook _ _ _ _ _ _ _ _ b => some b
    | _ => none

/-- The reads and closes of the request body in a run. -/
def bodyReads (t : List Action) : List Action :=
  t.filter fun a => match a with
    | .readAll => true
    | .close => true
    | _ => false

/-- The backoff notifications logged in a run. -/
def backoffLogs (t : List Action) : List Action :=
  t.filter fun a => match a with
    | .log .warn _ "onGeneralHook failed with '%s', backing off for %s" _ => true
    | _ => false

/-- An event is unroutable, in the words of the spec: an installation-lifecycle
event whose installation ID is zero (or that carries no installation, hence no
installation ID), or another event whose installation reference is null or has
ID zero. -/
def unroutable : Webhook → Prop
  | .installation h => match h.Installation with
    | none => True
    | some installation => installation.ID = 0
  | .general _ _ none => True
  | .general _ _ (some ref) => ref.ID = 0

/-- The request as the parser receives it: the body replaced by a fresh reader
over the bytes read. -/
def restored (r : Request) : Request :=
  { r with Body := Body.nopCloser r.Body.data }

/-- Whether every error response of a run comes after a log entry of level
`warn` or `error`; `seen` tells whether such an entry came before the run. -/
def errorsLogged : (seen : Bool) → List Action → Bool
  | _, [] => true
  | seen, .log level _ _ _ :: t =>
    errorsLogged (seen || decide (level = .warn) || decide (level = .error)) t
  | seen, .responseHTTPError _ _ _ :: t => seen && errorsLogged seen t
  | seen, _ :: t => errorsLogged seen t

/-! ## The runs of the handler, path by path -/

/-- The actions every POST run starts with when the SCM client is created and
the body is read and closed without error, up to the call of the parser. -/
def parseSteps (r : Request) : List Action :=
  [.log .debug [] "about to parse webhook" [], .createSCMClient "", .readAll, .close,
    .parse (Body.nopCloser r.Body.data)]

/-- The logger entry `l` built after a successful parse. -/
def hookFields (webhook : Webhook) : Fields :=
  [("FullName", .str webhook.Repository.FullName), ("Webhook", .str webhook.Kind)]

/-- The actions of a POST run up to the classification of the parsed event. -/
def classifySteps (r : Request) (webhook : Webhook) : List Action :=
  parseSteps r ++ [.log .info (hookFields webhook) "got hook %s" [.str webhook.Kind]]

/-- The logger entry `l` on the installation path. -/
def installFields (h : InstallationHook) (installation : Installation) : Fields :=
  hookFields (.installation h) ++ [("Installation", .int installation.ID)]

/-- The actions of a POST run that ends for want of an installation reference. -/
def missingRefRun (r : Request) (webhook : Webhook) : List Action :=
  classifySteps r webhook ++
    [.log .error (hookFields webhook ++ [("Hook", .hook webhook)])
        "no installation reference was passed for webhook" [],
      .responseHTTPError 500 "500 Internal Server Error: No installation in webhook" []]

/-- The actions of a POST run on the general path, given the run of `retry`. -/
def generalRun (r : Request) (webhook : Webhook) (installRef : InstallationRef)
    (run : RetryRun) : List Action :=
  classifySteps r webhook ++
    run.events.map (retryAction r.ctx (hookFields webhook) installRef webhook
      (r.Header "X-GitHub-Delivery") r.Body.data) ++
    (match run.result with
      | some err =>
        [.log .error (hookFields webhook ++ [("error", .str err)])
            "failed to process webhook after %s seconds for '%s'"
            [.duration 30000000000, .str webhook.Repository.FullName],
          .responseHTTPError 500 "500 Internal Server Error: %s" [.str err]]
      | none => []) ++
    [.writeResult (hookFields webhook) "OK"]

/-- The operation `retry` is given on the general path: the closure over
`onGeneralHook` and its arguments. -/
def generalOperation (o : HookOptions) (r : Request) (webhook : Webhook)
    (installRef : InstallationRef) : Nat → Option Error :=
  fun call => o.onGeneralHook call r.ctx (hookFields webhook) installRef webhook
    (r.Header "X-GitHub-Delivery") r.Body.data

/-- The elapsed times at which the calls of the general handler start. -/
def attemptStarts (t : List Action) : List Nat :=
  t.filterMap fun a => match a with
    | .onGeneralHook _ startedAt _ _ _ _ _ _ _ => some startedAt
    | _ => none

/-! ## The schedule of a `retry` run -/

/-- The interval of the exponential curve before the `k`-th delay is drawn. -/
def intervalAt : Nat → Nat
  | 0 => DefaultInitialInterval
  | k + 1 => incrementCurrentInterval (intervalAt k)

/-- The delay computed after the failure of call `k`. -/
def delayAt (env : RetryEnv) (k : Nat) : Nat :=
  getRandomValueFromInterval (env.random k) (intervalAt k)

/-- The elapsed time at which call `k` starts, when the calls before it failed
and were each followed by a backoff. -/
def startAt (env : RetryEnv) : Nat → Nat
  | 0 => 0
  | k + 1 => startAt env k + env.cost k + delayAt env k

/-- The elapsed time at which call `k` returns. -/
def endAt (env : RetryEnv) (k : Nat) : Nat := startAt env k + env.cost k

/-- The elapsed-time budget is found exceeded when call `k` has failed. -/
def budgetExceeded (maxElapsedTime : Int) (env : RetryEnv) (k : Nat) : Prop :=
  maxElapsedTime ≠ 0 ∧ maxElapsedTime < (endAt env k : Int)

/-- The events of a run whose calls `k, ..., k + n` are made, each but the last
followed by a notification. -/
def schedule (f : Nat → Option Error) (env : RetryEnv) (k : Nat) : Nat → List RetryEvent
  | 0 => [.attempt k (startAt env k) (endAt env k) (f k)]
  | n + 1 => .attempt k (startAt env k) (endAt env k) (f k) ::
      .notify ((f k).getD "") (delayAt env k) :: schedule f env (k + 1) n

/-- The number of calls of the operation in a run. -/
def RetryRun.calls (run : RetryRun) : Nat :=
  (run.events.filter fun e => match e with
    | .attempt .. => true
    | _ => false).length

/-- The delays passed to the notify function in a run, in order. -/
def RetryRun.delays (run : RetryRun) : List Nat :=
  run.events.filterMap fun e => match e with
    | .notify _ d => some d
    | _ => none

/-! ## Sample inputs -/

/-- A clock on which the handler takes no time, and a random source that
always draws zero. -/
def instantEnv : RetryEnv := ⟨fun _ => 0, fun _ => 0⟩

/-- Options whose parser returns `parsed`, whose installation handler returns
`install` and whose general handler returns `general call` on its `call`-th
invocation; the SCM client is created without error. -/
def sampleOptions (parsed : Option Webhook × Option Error) (install : Option Error)
    (general : Nat → Option Error) : HookOptions :=
  { createSCMClient := fun _ => none
    Parse := fun _ => parsed
    onInstallHook := fun _ _ _ => install
    onGeneralHook := fun call _ _ _ _ _ _ => general call
    env := instantEnv }

/-- A delivery: a POST whose body reads and closes without error. -/
def postRequest : Request :=
  { Method := "POST", Header := fun _ => "72d3162e-cc78-11e3-81ab-4c9367dc0958",
    Body := ⟨[123, 125], none, none⟩, ctx := ⟨none⟩ }

/-- The delivery `postRequest` with a context that is cancelled one nanosecond
after `retry` starts. -/
def cancelledRequest : Request := { postRequest with ctx := ⟨some 1⟩ }

/-- A liveness probe. -/
def getRequest : Request := { postRequest with Method := "GET" }

/-- A push event of installation 777. -/
def pushHook : Webhook := .general "push" ⟨"acme/widgets"⟩ (some ⟨777⟩)

/-- An installation-lifecycle event of installation 12345. -/
def installHook : InstallationHook := ⟨some ⟨12345⟩, ⟨"acme/widgets"⟩, "installation"⟩

/-- An installation-lifecycle event whose installation has ID zero. -/
def installHookZero : InstallationHook := ⟨some ⟨0⟩, ⟨"acme/widgets"⟩, "installation"⟩

/-- An installation-lifecycle event that carries no installation. -/
def installHookNil : InstallationHook := ⟨none, ⟨"acme/widgets"⟩, "installation"⟩

/-! ## The run of the handler on each path -/

theorem handle_scm_error (o : HookOptions) (fuel : Nat) (r : Request) (err : Error)
    (hm : r.Method = MethodPost) (h1 : o.createSCMClient "" = some err) :
    handleWebHookRequests o fuel r = some
      [.log .debug [] "about to parse webhook" [], .createSCMClient "",
        .log .error [] "failed to create SCM scmClient: %s" [.str err],
        .responseHTTPError 500
          ("500 Internal Server Error: Failed to parse webhook: " ++ err) []] := by
  unfold handleWebHookRequests
  rw [if_neg (not_not.mpr hm)]
  simp only [h1]
  rfl

theorem handle_read_error (o : HookOptions) (fuel : Nat) (r : Request) (err : Error)
    (hm : r.Method = MethodPost) (h1 : o.createSCMClient "" = none)
    (h2 : r.Body.readErr = some err) :
    handleWebHookRequests o fuel r = some
      [.log .debug [] "about to parse webhook" [], .createSCMClient "", .readAll,
        .log .error [] "failed to Read Body: %s" [.str err],
        .responseHTTPError 500 ("500 Internal Server Error: Read Body: " ++ err) []] := by
  unfold handleWebHookRequests
  rw [if_neg (not_not.mpr hm)]
  simp only [h1, h2]
  rfl

theorem handle_close_error (o : HookOptions) (fuel : Nat) (r : Request) (err : Error)
    (hm : r.Method = MethodPost) (h1 : o.createSCMClient "" = none)
    (h2 : r.Body.readErr = none) (h3 : r.Body.closeErr = some err) :
    handleWebHookRequests o fuel r = some
      [.log .debug [] "about to parse webhook" [], .createSCMClient "", .readAll, .close,
        .log .error [] "failed to Close Body: %s" [.str err],
        .responseHTTPError 500 ("500 Internal Server Error: Read Close: " ++ err) []] := by
  unfold handleWebHookRequests
  rw [if_neg (not_not.mpr hm)]
  simp only [h1, h2, h3]
  rfl

theorem handle_parse_error (o : HookOptions) (fuel : Nat) (r : Request) (w : Option Webhook)
    (err : Error) (hm : r.Method = MethodPost) (h1 : o.createSCMClient "" = none)
    (h2 : r.Body.readErr = none) (h3 : r.Body.closeErr = none)
    (hp : o.Parse (restored r) = (w, some err)) :
    handleWebHookRequests o fuel r = some (parseSteps r ++
      [.log .warn [] "failed to parse webhook: %s" [.str err],
        .responseHTTPError 500
          ("500 Internal Server Error: Failed to parse webhook: " ++ err) []]) := by
  unfold handleWebHookRequests
  rw [if_neg (not_not.mpr hm)]
  simp only [h1, h2, h3]
  have hp1 : o.Parse { r with Body := Body.nopCloser r.Body.data } = (w, some err) := hp
  simp only [hp1]
  rfl

theorem handle_parse_nil (o : HookOptions) (fuel : Nat) (r : Request)
    (hm : r.Method = MethodPost) (h1 : o.createSCMClient "" = none)
    (h2 : r.Body.readErr = none) (h3 : r.Body.closeErr = none)
    (hp : o.Parse (restored r) = (none, none)) :
    handleWebHookRequests o fuel r = some (parseSteps r ++
      [.log .error [] "no webhook was parsed" [],
        .responseHTTPError 500 "500 Internal Server Error: No webhook could be parsed" []]) := by
  unfold handleWebHookRequests
  rw [if_neg (not_not.mpr hm)]
  simp only [h1, h2, h3]
  have hp1 : o.Parse { r with Body := Body.nopCloser r.Body.data } = (none, none) := hp
  simp only [hp1]
  rfl

theorem handle_install_nil (o : HookOptions) (fuel : Nat) (r : Request) (h : InstallationHook)
    (hm : r.Method = MethodPost) (h1 : o.createSCMClient "" = none)
    (h2 : r.Body.readErr = none) (h3 : r.Body.closeErr = none)
    (hp : o.Parse (restored r) = (some (.installation h), none)) (hi : h.Installation = none) :
    handleWebHookRequests o fuel r =
      some (classifySteps r (.installation h) ++ [.nilDereference]) := by
  unfold handleWebHookRequests
  rw [if_neg (not_not.mpr hm)]
  simp only [h1, h2, h3]
  have hp1 : o.Parse { r with Body := Body.nopCloser r.Body.data } =
    (some (.installation h), none) := hp
  simp only [hp1, hi]
  rfl

theorem handle_install_zero (o : HookOptions) (fuel : Nat) (r : Request) (h : InstallationHook)
    (inst : Installation)
    (hm : r.Method = MethodPost) (h1 : o.createSCMClient "" = none)
    (h2 : r.Body.readErr = none) (h3 : r.Body.closeErr = none)
    (hp : o.Parse (restored r) = (some (.installation h), none))
    (hi : h.Installation = some inst) (hid : inst.ID = 0) :
    handleWebHookRequests o fuel r = some (classifySteps r (.installation h) ++
      [.responseHTTPError 500 "500 Internal Server Error: missing installation ID" []]) := by
  unfold handleWebHookRequests
  rw [if_neg (not_not.mpr hm)]
  simp only [h1, h2, h3]
  have hp1 : o.Parse { r with Body := Body.nopCloser r.Body.data } =
    (some (.installation h), none) := hp
  simp only [hp1, hi, hid, if_true]
  rfl

theorem handle_install_ok (o : HookOptions) (fuel : Nat) (r : Request) (h : InstallationHook)
    (inst : Installation)
    (hm : r.Method = MethodPost) (h1 : o.createSCMClient "" = none)
    (h2 : r.Body.readErr = none) (h3 : r.Body.closeErr = none)
    (hp : o.Parse (restored r) = (some (.installation h), none))
    (hi : h.Installation = some inst) (hid : inst.ID ≠ 0)
    (hh : o.onInstallHook r.ctx (installFields h inst) h = none) :
    handleWebHookRequests o fuel r = some (classifySteps r (.installation h) ++
      [.log .info (installFields h inst) "invoking Installation handler" [],
        .onInstallHook r.ctx (installFields h inst) h,
        .writeResult (installFields h inst) "OK"]) := by
  unfold handleWebHookRequests
  rw [if_neg (not_not.mpr hm)]
  simp only [h1, h2, h3]
  have hp1 : o.Parse { r with Body := Body.nopCloser r.Body.data } =
    (some (.installation h), none) := hp
  have hh1 : o.onInstallHook r.ctx
    ([("FullName", Value.str (Webhook.installation h).Repository.FullName),
      ("Webhook", Value.str (Webhook.installation h).Kind)] ++
      [("Installation", Value.int inst.ID)]) h = none := hh
  simp only [hp1, hi, hid, if_false, hh1]
  rfl

theorem handle_install_error (o : HookOptions) (fuel : Nat) (r : Request) (h : InstallationHook)
    (inst : Installation) (err : Error)
    (hm : r.Method = MethodPost) (h1 : o.createSCMClient "" = none)
    (h2 : r.Body.readErr = none) (h3 : r.Body.closeErr = none)
    (hp : o.Parse (restored r) = (some (.installation h), none))
    (hi : h.Installation = some inst) (hid : inst.ID ≠ 0)
    (hh : o.onInstallHook r.ctx (installFields h inst) h = some err) :
    handleWebHookRequests o fuel r = some (classifySteps r (.installation h) ++
      [.log .info (installFields h inst) "invoking Installation handler" [],
        .onInstallHook r.ctx (installFields h inst) h,
        .responseHTTPError 500 "500 Internal Server Error: %s" [.str err]]) := by
  unfold handleWebHookRequests
  rw [if_neg (not_not.mpr hm)]
  simp only [h1, h2, h3]
  have hp1 : o.Parse { r with Body := Body.nopCloser r.Body.data } =
    (some (.installation h), none) := hp
  have hh1 : o.onInstallHook r.ctx
    ([("FullName", Value.str (Webhook.installation h).Repository.FullName),
      ("Webhook", Value.str (Webhook.installation h).Kind)] ++
      [("Installation", Value.int inst.ID)]) h = some err := hh
  simp only [hp1, hi, hid, if_false, hh1]
  rfl

theorem handle_missing_ref (o : HookOptions) (fuel : Nat) (r : Request) (kind : String)
    (repo : Repository) (ref : Option InstallationRef)
    (hm : r.Method = MethodPost) (h1 : o.createSCMClient "" = none)
    (h2 : r.Body.readErr = none) (h3 : r.Body.closeErr = none)
    (hp : o.Parse (restored r) = (some (.general kind repo ref), none))
    (hu : unroutable (.general kind repo ref)) :
    handleWebHookRequests o fuel r = some (missingRefRun r (.general kind repo ref)) := by
  unfold handleWebHookRequests
  rw [if_neg (not_not.mpr hm)]
  simp only [h1, h2, h3]
  have hp1 : o.Parse { r with Body := Body.nopCloser r.Body.data } =
    (some (.general kind repo ref), none) := hp
  simp only [hp1]
  cases ref with
  | none => rfl
  | some ref =>
    have hz : ref.ID = 0 := hu
    simp only [hz, if_true]
    rfl

theorem handle_general (o : HookOptions) (fuel : Nat) (r : Request) (kind : String)
    (repo : Repository) (ref : InstallationRef)
    (hm : r.Method = MethodPost) (h1 : o.createSCMClient "" = none)
    (h2 : r.Body.readErr = none) (h3 : r.Body.closeErr = none)
    (hp : o.Parse (restored r) = (some (.general kind repo (some ref)), none))
    (hid : ref.ID ≠ 0) :
    handleWebHookRequests o fuel r =
      (retry 30000000000 (generalOperation o r (.general kind repo (some ref)) ref)
        o.env fuel).map (generalRun r (.general kind repo (some ref)) ref) := by
  unfold handleWebHookRequests
  rw [if_neg (not_not.mpr hm)]
  simp only [h1, h2, h3]
  have hp1 : o.Parse { r with Body := Body.nopCloser r.Body.data } =
    (some (.general kind repo (some ref)), none) := hp
  simp only [hp1, hid, if_false]
  have e30 : (1000000000 * 30 : Int) = 30000000000 := by norm_num
  simp only [e30]
  change (match retry 30000000000
      (generalOperation o r (.general kind repo (some ref)) ref) o.env fuel with
    | none => none
    | some run => _) = _
  cases retry 30000000000 (generalOperation o r (.general kind repo (some ref)) ref)
      o.env fuel with
  | none => rfl
  | some run =>
    simp only [Option.map_some', generalRun, Option.some.injEq]
    cases run.result <;> simp [classifySteps, parseSteps, hookFields, StatusInternalServerError]

/-! ## The loop of `retry` follows its schedule -/

theorem retryNotify_schedule (maxElapsedTime : Int) (f : Nat → Option Error) (env : RetryEnv) :
    ∀ (n k fuel : Nat), n < fuel →
      (∀ i, i < n → (f (k + i)).isSome ∧ ¬ budgetExceeded maxElapsedTime env (k + i)) →
      (f (k + n) = none ∨ budgetExceeded maxElapsedTime env (k + n)) →
      RetryNotify maxElapsedTime f env fuel k (startAt env k) (intervalAt k) =
        some ⟨f (k + n), schedule f env k n⟩ := by
  intro n
  induction n with
  | zero =>
    intro k fuel hfuel _ hstop
    obtain ⟨fuel, rfl⟩ : ∃ m, fuel = m + 1 := ⟨fuel - 1, by omega⟩
    rw [RetryNotify]
    cases hf : f k with
    | none => simp [schedule, endAt, hf]
    | some err =>
      have hb : budgetExceeded maxElapsedTime env k := by
        rcases hstop with h | h
        · simp [hf] at h
        · simpa using h
      have hn : NextBackOff maxElapsedTime (startAt env k + env.cost k) (env.random k)
          (intervalAt k) = none := by
        unfold NextBackOff
        rw [if_pos]
        exact hb
      simp [hn, schedule, endAt, hf]
  | succ n ih =>
    intro k fuel hfuel hgo hstop
    obtain ⟨fuel, rfl⟩ : ∃ m, fuel = m + 1 := ⟨fuel - 1, by omega⟩
    rw [RetryNotify]
    have h0 := hgo 0 (by omega)
    simp only [Nat.add_zero] at h0
    obtain ⟨err, hf⟩ := Option.isSome_iff_exists.mp h0.1
    have hn : NextBackOff maxElapsedTime (startAt env k + env.cost k) (env.random k)
        (intervalAt k) = some (delayAt env k) := by
      unfold NextBackOff
      rw [if_neg]
      · rfl
      · exact h0.2
    have hrec := ih (k + 1) fuel (by omega)
      (fun i hi => by
        have := hgo (i + 1) (by omega)
        rwa [show k + (i + 1) = k + 1 + i by omega] at this)
      (by rwa [show k + (n + 1) = k + 1 + n by omega] at hstop)
    have hs : startAt env (k + 1) = startAt env k + env.cost k + delayAt env k := rfl
    have hi : intervalAt (k + 1) = incrementCurrentInterval (intervalAt k) := rfl
    rw [hs, hi] at hrec
    simp only [hf, hn, hrec, Option.map_some']
    simp [schedule, endAt, hf, show k + 1 + n = k + (n + 1) by omega]


theorem incrementCurrentInterval_bounds (c : Nat) (hc : c ≤ DefaultMaxInterval) :
    c ≤ incrementCurrentInterval c ∧ incrementCurrentInterval c ≤ DefaultMaxInterval := by
  unfold incrementCurrentInterval
  unfold DefaultMaxInterval at *
  split <;> omega

theorem intervalAt_bounds (k : Nat) :
    DefaultInitialInterval ≤ intervalAt k ∧ intervalAt k ≤ DefaultMaxInterval := by
  induction k with
  | zero => exact ⟨le_refl _, by decide⟩
  | succ k ih =>
    have h := incrementCurrentInterval_bounds (intervalAt k) ih.2
    exact ⟨le_trans ih.1 h.1, h.2⟩

theorem intervalAt_mono (k : Nat) : intervalAt k ≤ intervalAt (k + 1) :=
  (incrementCurrentInterval_bounds (intervalAt k) (intervalAt_bounds k).2).1

theorem getRandomValueFromInterval_bounds (random c : Nat) :
    c ≤ 2 * getRandomValueFromInterval random c + 1 ∧
      2 * getRandomValueFromInterval random c ≤ 3 * c + 1 := by
  unfold getRandomValueFromInterval
  have hr : random % 2 ^ 53 ≤ 2 ^ 53 - 1 := by
    have := Nat.mod_lt random (show 0 < 2 ^ 53 by norm_num)
    omega
  have hx : random % 2 ^ 53 * (c + 1) ≤ (2 ^ 53 - 1) * (c + 1) := Nat.mul_le_mul_right _ hr
  have e : 2 * (random % 2 ^ 53) * (c + 1) = 2 * (random % 2 ^ 53 * (c + 1)) := by ring
  rw [e]
  generalize random % 2 ^ 53 * (c + 1) = x at hx
  norm_num at hx ⊢
  omega

theorem delayAt_ge (env : RetryEnv) (k : Nat) : 250000000 ≤ delayAt env k := by
  have h := (getRandomValueFromInterval_bounds (env.random k) (intervalAt k)).1
  have hi := (intervalAt_bounds k).1
  unfold DefaultInitialInterval at hi
  unfold delayAt
  omega

theorem startAt_ge (env : RetryEnv) (k : Nat) : k * 250000000 ≤ startAt env k := by
  induction k with
  | zero => simp
  | succ k ih =>
    have h := delayAt_ge env k
    simp only [startAt]
    omega

theorem retry_returns (maxElapsedTime : Int) (f : Nat → Option Error) (env : RetryEnv)
    (fuel : Nat) (hmax : maxElapsedTime ≠ 0)
    (hfuel : maxElapsedTime.toNat / 250000000 + 1 < fuel) :
    ∃ n, n < fuel ∧ retry maxElapsedTime f env fuel = some ⟨f n, schedule f env 0 n⟩ ∧
      (∀ i, i < n → (f i).isSome ∧ ¬ budgetExceeded maxElapsedTime env i) ∧
      (f n = none ∨ budgetExceeded maxElapsedTime env n) := by
  classical
  have hex : ∃ n, f n = none ∨ budgetExceeded maxElapsedTime env n := by
    refine ⟨maxElapsedTime.toNat / 250000000 + 1, Or.inr ⟨hmax, ?_⟩⟩
    have h := startAt_ge env (maxElapsedTime.toNat / 250000000 + 1)
    have hd := Nat.div_add_mod maxElapsedTime.toNat 250000000
    have hm := Nat.mod_lt maxElapsedTime.toNat (show 0 < 250000000 by norm_num)
    unfold endAt
    omega
  have hle : Nat.find hex ≤ maxElapsedTime.toNat / 250000000 + 1 := by
    apply Nat.find_min'
    refine Or.inr ⟨hmax, ?_⟩
    have h := startAt_ge env (maxElapsedTime.toNat / 250000000 + 1)
    have hd := Nat.div_add_mod maxElapsedTime.toNat 250000000
    have hm := Nat.mod_lt maxElapsedTime.toNat (show 0 < 250000000 by norm_num)
    unfold endAt
    omega
  have hmin : ∀ i, i < Nat.find hex → (f i).isSome ∧ ¬ budgetExceeded maxElapsedTime env i := by
    intro i hi
    have h := Nat.find_min hex hi
    push_neg at h
    exact ⟨Option.ne_none_iff_isSome.mp h.1, h.2⟩
  refine ⟨Nat.find hex, by omega, ?_, hmin, Nat.find_spec hex⟩
  have h := retryNotify_schedule maxElapsedTime f env (Nat.find hex) 0 fuel (by omega)
    (by simpa using hmin) (by simpa using Nat.find_spec hex)
  simpa [retry] using h

/-! ## Observations on the actions of a `retry` run -/

theorem schedule_calls (f : Nat → Option Error) (env : RetryEnv) (res : Option Error) :
    ∀ (n k : Nat), RetryRun.calls ⟨res, schedule f env k n⟩ = n + 1 := by
  intro n
  induction n with
  | zero => intro k; simp [RetryRun.calls, schedule]
  | succ n ih =>
    intro k
    have h := ih (k + 1)
    simp only [RetryRun.calls] at h
    simp [RetryRun.calls, schedule, h]

theorem schedule_delays (f : Nat → Option Error) (env : RetryEnv) (res : Option Error) :
    ∀ (n k : Nat), RetryRun.delays ⟨res, schedule f env k n⟩ =
      (List.range n).map fun i => delayAt env (k + i) := by
  intro n
  induction n with
  | zero => intro k; simp [RetryRun.delays, schedule]
  | succ n ih =>
    intro k
    have h := ih (k + 1)
    simp only [RetryRun.delays] at h
    have e : (List.range (n + 1)).map (fun i => delayAt env (k + i)) =
        delayAt env k :: (List.range n).map (fun i => delayAt env (k + 1 + i)) := by
      rw [List.range_succ_eq_map, List.map_cons, List.map_map]
      refine congrArg₂ _ rfl (List.map_congr_left fun i _ => ?_)
      simp only [Function.comp_apply]
      rw [show k + 1 + i = k + (i + 1) by omega]
    rw [e, ← h]
    simp [RetryRun.delays, schedule]

theorem responses_retryActions (ctx : Context) (l : Fields) (ref : InstallationRef)
    (w : Webhook) (d : String) (b : List Byte) (evs : List RetryEvent) :
    responses (evs.map (retryAction ctx l ref w d b)) = [] := by
  induction evs with
  | nil => rfl
  | cons e evs ih =>
    simp only [responses] at ih
    cases e <;> simp [responses, retryAction, Action.response, ih]

theorem installCalls_retryActions (ctx : Context) (l : Fields) (ref : InstallationRef)
    (w : Webhook) (d : String) (b : List Byte) (evs : List RetryEvent) :
    installCalls (evs.map (retryAction ctx l ref w d b)) = [] := by
  induction evs with
  | nil => rfl
  | cons e evs ih =>
    simp only [installCalls] at ih
    cases e <;> simp [installCalls, retryAction, ih]

theorem parsedBodies_retryActions (ctx : Context) (l : Fields) (ref : InstallationRef)
    (w : Webhook) (d : String) (b : List Byte) (evs : List RetryEvent) :
    parsedBodies (evs.map (retryAction ctx l ref w d b)) = [] := by
  induction evs with
  | nil => rfl
  | cons e evs ih =>
    simp only [parsedBodies] at ih
    cases e <;> simp [parsedBodies, retryAction, ih]

theorem payloads_retryActions (ctx : Context) (l : Fields) (ref : InstallationRef)
    (w : Webhook) (d : String) (b : List Byte) (evs : List RetryEvent) :
    ∀ x ∈ payloads (evs.map (retryAction ctx l ref w d b)), x = b := by
  induction evs with
  | nil => intro x hx; simp [payloads] at hx
  | cons e evs ih =>
    intro x hx
    simp only [payloads] at ih
    cases e with
    | attempt c s t r =>
      simp only [payloads, List.map_cons, retryAction, List.filterMap_cons, List.mem_cons] at hx
      rcases hx with hx | hx
      · exact hx
      · exact ih x hx
    | notify err dl =>
      simp only [payloads, List.map_cons, retryAction, List.filterMap_cons] at hx
      exact ih x hx

theorem attemptStarts_schedule (ctx : Context) (l : Fields) (ref : InstallationRef)
    (w : Webhook) (d : String) (b : List Byte) (f : Nat → Option Error) (env : RetryEnv) :
    ∀ (n k : Nat), attemptStarts ((schedule f env k n).map (retryAction ctx l ref w d b)) =
      (List.range (n + 1)).map fun i => startAt env (k + i) := by
  intro n
  induction n with
  | zero => intro k; simp [attemptStarts, schedule, retryAction, List.range_succ]
  | succ n ih =>
    intro k
    have h := ih (k + 1)
    have e : (List.range (n + 1 + 1)).map (fun i => startAt env (k + i)) =
        startAt env k :: (List.range (n + 1)).map (fun i => startAt env (k + 1 + i)) := by
      rw [List.range_succ_eq_map, List.map_cons, List.map_map]
      refine congrArg₂ _ rfl (List.map_congr_left fun i _ => ?_)
      simp only [Function.comp_apply]
      rw [show k + 1 + i = k + (i + 1) by omega]
    rw [e, ← h]
    simp [attemptStarts, schedule, retryAction]

theorem retry_budget_returns (f : Nat → Option Error) (env : RetryEnv) (fuel : Nat)
    (hfuel : 122 ≤ fuel) :
    ∃ n, retry 30000000000 f env fuel = some ⟨f n, schedule f env 0 n⟩ ∧
      (∀ i, i < n → (f i).isSome ∧ ¬ budgetExceeded 30000000000 env i) ∧
      (f n = none ∨ budgetExceeded 30000000000 env n) := by
  obtain ⟨n, _, h⟩ := retry_returns 30000000000 f env fuel (by norm_num) (by
    have : (30000000000 : Int).toNat = 30000000000 := rfl
    rw [this]
    omega)
  exact ⟨n, h⟩

/-! ## The claims on the paths that need no retry -/

/-- C9: a request whose method is not POST is answered by the index responder
alone: the run is one debug log entry followed by one call of `getIndex`, so
the body is neither read nor closed, nothing is parsed, no handler is invoked
and no error response is written. -/
theorem non_post_delegates_to_index (o : HookOptions) (fuel : Nat) (r : Request)
    (hm : r.Method ≠ MethodPost) :
    ∃ t, handleWebHookRequests o fuel r = some t ∧
      t = [.log .debug [("method", .str r.Method)] "invalid http method so returning index" [],
        .getIndex] ∧
      responses t = [.index] ∧ bodyReads t = [] ∧ parsedBodies t = [] ∧
      installCalls t = [] ∧ generalCalls t = [] := by
  refine ⟨_, by simp [handleWebHookRequests, hm], rfl, ?_⟩
  simp [responses, Action.response, bodyReads, parsedBodies, installCalls, generalCalls]

/-- Witness of C9: a GET request. -/
theorem non_post_delegates_to_index_witness :
    getRequest.Method ≠ MethodPost ∧
    ∃ t, handleWebHookRequests (sampleOptions (none, none) none fun _ => none) 0 getRequest
        = some t ∧
      t = [.log .debug [("method", .str getRequest.Method)]
        "invalid http method so returning index" [], .getIndex] ∧
      responses t = [.index] ∧ bodyReads t = [] ∧ parsedBodies t = [] ∧
      installCalls t = [] ∧ generalCalls t = [] :=
  ⟨by decide, non_post_delegates_to_index _ 0 getRequest (by decide)⟩

/-- C2: when the parser returns an error, or a nil event without an error, for
the restored POST request, the run writes one response, of status 500, and
calls neither the installation handler nor the general handler, so `retry`,
whose every run calls the general handler, is not started and logs no backoff. -/
theorem parse_failure_responds_500 (o : HookOptions) (fuel : Nat) (r : Request)
    (hm : r.Method = MethodPost)
    (hp : (∃ w err, o.Parse (restored r) = (w, some err)) ∨
      o.Parse (restored r) = (none, none)) :
    ∃ t, handleWebHookRequests o fuel r = some t ∧
      (responses t).map Response.status = [some 500] ∧
      installCalls t = [] ∧ generalCalls t = [] ∧ backoffLogs t = [] := by
  cases h1 : o.createSCMClient "" with
  | some e =>
    refine ⟨_, handle_scm_error o fuel r e hm h1, ?_⟩
    simp [responses, Action.response, Response.status, installCalls, generalCalls, backoffLogs]
  | none =>
    cases h2 : r.Body.readErr with
    | some e =>
      refine ⟨_, handle_read_error o fuel r e hm h1 h2, ?_⟩
      simp [responses, Action.response, Response.status, installCalls, generalCalls, backoffLogs]
    | none =>
      cases h3 : r.Body.closeErr with
      | some e =>
        refine ⟨_, handle_close_error o fuel r e hm h1 h2 h3, ?_⟩
        simp [responses, Action.response, Response.status, installCalls, generalCalls,
          backoffLogs]
      | none =>
        rcases hp with ⟨w, err, hp⟩ | hp
        · refine ⟨_, handle_parse_error o fuel r w err hm h1 h2 h3 hp, ?_⟩
          simp [responses, Action.response, Response.status, installCalls, generalCalls,
            backoffLogs, parseSteps]
        · refine ⟨_, handle_parse_nil o fuel r hm h1 h2 h3 hp, ?_⟩
          simp [responses, Action.response, Response.status, installCalls, generalCalls,
            backoffLogs, parseSteps]

/-- Witness of C2: a delivery whose signature the parser rejects. -/
theorem parse_failure_responds_500_witness :
    postRequest.Method = MethodPost ∧
    ((∃ w err, (sampleOptions (none, some "invalid signature") none fun _ => none).Parse
        (restored postRequest) = (w, some err)) ∨
      (sampleOptions (none, some "invalid signature") none fun _ => none).Parse
        (restored postRequest) = (none, none)) ∧
    ∃ t, handleWebHookRequests (sampleOptions (none, some "invalid signature") none fun _ => none)
        0 postRequest = some t ∧
      (responses t).map Response.status = [some 500] ∧
      installCalls t = [] ∧ generalCalls t = [] ∧ backoffLogs t = [] :=
  ⟨rfl, Or.inl ⟨none, "invalid signature", rfl⟩,
    parse_failure_responds_500 _ 0 postRequest rfl (Or.inl ⟨none, "invalid signature", rfl⟩)⟩

/-- The unroutable events that carry what the handler reads: when the parser
returns, for the restored POST request, an installation-lifecycle event whose
installation is present with ID zero, or another event whose installation
reference is nil or has ID zero, the run writes one response, of status 500,
and calls neither the installation handler nor the general handler, so `retry`
is not started and logs no backoff. -/
theorem unroutable_present_responds_500 (o : HookOptions) (fuel : Nat) (r : Request)
    (w : Webhook) (hm : r.Method = MethodPost) (hp : o.Parse (restored r) = (some w, none))
    (hu : unroutable w) (hpresent : ∀ h, w = .installation h → h.Installation ≠ none) :
    ∃ t, handleWebHookRequests o fuel r = some t ∧
      (responses t).map Response.status = [some 500] ∧
      installCalls t = [] ∧ generalCalls t = [] ∧ backoffLogs t = [] := by
  cases h1 : o.createSCMClient "" with
  | some e =>
    refine ⟨_, handle_scm_error o fuel r e hm h1, ?_⟩
    simp [responses, Action.response, Response.status, installCalls, generalCalls, backoffLogs]
  | none =>
    cases h2 : r.Body.readErr with
    | some e =>
      refine ⟨_, handle_read_error o fuel r e hm h1 h2, ?_⟩
      simp [responses, Action.response, Response.status, installCalls, generalCalls, backoffLogs]
    | none =>
      cases h3 : r.Body.closeErr with
      | some e =>
        refine ⟨_, handle_close_error o fuel r e hm h1 h2 h3, ?_⟩
        simp [responses, Action.response, Response.status, installCalls, generalCalls,
          backoffLogs]
      | none =>
        cases w with
        | installation h =>
          cases hi : h.Installation with
          | none => exact absurd hi (hpresent h rfl)
          | some inst =>
            have hid : inst.ID = 0 := by
              have := hu
              simp only [unroutable, hi] at this
              exact this
            refine ⟨_, handle_install_zero o fuel r h inst hm h1 h2 h3 hp hi hid, ?_⟩
            simp [responses, Action.response, Response.status, installCalls, generalCalls,
              backoffLogs, classifySteps, parseSteps]
        | general kind repo ref =>
          refine ⟨_, handle_missing_ref o fuel r kind repo ref hm h1 h2 h3 hp hu, ?_⟩
          simp [responses, Action.response, Response.status, installCalls, generalCalls,
            backoffLogs, missingRefRun, classifySteps, parseSteps]

/-- C3: the claim fails at an installation-lifecycle event that carries no
installation, hence no installation ID: line 70 reads the ID through the nil
pointer, the run ends there, and no response is written, where the claim says
status 500 (as the other path does for a nil installation reference). -/
theorem missing_installation_writes_no_response :
    unroutable (.installation installHookNil) ∧
    (handleWebHookRequests
        (sampleOptions (some (.installation installHookNil), none) none fun _ => none)
        0 postRequest).map (fun t => (responses t, t.getLast?)) =
      some ([], some .nilDereference) :=
  ⟨trivial, by decide⟩

/-- C4: for a successfully parsed installation-lifecycle event with a non-zero
installation ID, the run calls the installation handler exactly once, with that
event, and never the general handler (so `retry` is not started and logs no
backoff); it writes one response: 200 with body "OK" when the handler returns
no error, and status 500 when it returns one. -/
theorem install_event_handled_once (o : HookOptions) (fuel : Nat) (r : Request)
    (h : InstallationHook) (inst : Installation)
    (hm : r.Method = MethodPost) (h1 : o.createSCMClient "" = none)
    (h2 : r.Body.readErr = none) (h3 : r.Body.closeErr = none)
    (hp : o.Parse (restored r) = (some (.installation h), none))
    (hi : h.Installation = some inst) (hid : inst.ID ≠ 0) :
    ∃ t, handleWebHookRequests o fuel r = some t ∧
      installCalls t = [.onInstallHook r.ctx (installFields h inst) h] ∧
      generalCalls t = [] ∧ backoffLogs t = [] ∧
      (o.onInstallHook r.ctx (installFields h inst) h = none →
        responses t = [.http 200 "OK" []]) ∧
      (∀ err, o.onInstallHook r.ctx (installFields h inst) h = some err →
        (responses t).map Response.status = [some 500]) := by
  cases hh : o.onInstallHook r.ctx (installFields h inst) h with
  | none =>
    refine ⟨_, handle_install_ok o fuel r h inst hm h1 h2 h3 hp hi hid hh, ?_⟩
    simp [responses, Action.response, installCalls, generalCalls, backoffLogs, classifySteps,
      parseSteps]
  | some err =>
    refine ⟨_, handle_install_error o fuel r h inst err hm h1 h2 h3 hp hi hid hh, ?_⟩
    simp [responses, Action.response, Response.status, installCalls, generalCalls, backoffLogs,
      classifySteps, parseSteps]

/-- Witness of C4: the installation-lifecycle event of installation 12345. -/
theorem install_event_handled_once_witness :
    postRequest.Method = MethodPost ∧
    (sampleOptions (some (.installation installHook), none) none fun _ => none).createSCMClient ""
      = none ∧
    postRequest.Body.readErr = none ∧ postRequest.Body.closeErr = none ∧
    (sampleOptions (some (.installation installHook), none) none fun _ => none).Parse
      (restored postRequest) = (some (.installation installHook), none) ∧
    installHook.Installation = some ⟨12345⟩ ∧ (⟨12345⟩ : Installation).ID ≠ 0 ∧
    ∃ t, handleWebHookRequests
        (sampleOptions (some (.installation installHook), none) none fun _ => none)
        0 postRequest = some t ∧
      installCalls t =
        [.onInstallHook postRequest.ctx (installFields installHook ⟨12345⟩) installHook] ∧
      generalCalls t = [] ∧ backoffLogs t = [] ∧
      ((sampleOptions (some (.installation installHook), none) none fun _ => none).onInstallHook
          postRequest.ctx (installFields installHook ⟨12345⟩) installHook = none →
        responses t = [.http 200 "OK" []]) ∧
      (∀ err,
        (sampleOptions (some (.installation installHook), none) none fun _ => none).onInstallHook
          postRequest.ctx (installFields installHook ⟨12345⟩) installHook = some err →
        (responses t).map Response.status = [some 500]) :=
  ⟨rfl, rfl, rfl, rfl, rfl, rfl, by decide,
    install_event_handled_once _ 0 postRequest installHook ⟨12345⟩ rfl rfl rfl rfl rfl rfl
      (by decide)⟩

/-! ## The general path -/

theorem parsedBodies_generalRun (r : Request) (w : Webhook) (ref : InstallationRef)
    (run : RetryRun) : parsedBodies (generalRun r w ref run) = [Body.nopCloser r.Body.data] := by
  have h := parsedBodies_retryActions r.ctx (hookFields w) ref w (r.Header "X-GitHub-Delivery")
    r.Body.data run.events
  simp only [parsedBodies] at h
  cases hr : run.result <;>
    simp [generalRun, parsedBodies, List.filterMap_append, h, hr, classifySteps, parseSteps]

theorem payloads_generalRun (r : Request) (w : Webhook) (ref : InstallationRef)
    (run : RetryRun) : ∀ x ∈ payloads (generalRun r w ref run), x = r.Body.data := by
  have h := payloads_retryActions r.ctx (hookFields w) ref w (r.Header "X-GitHub-Delivery")
    r.Body.data run.events
  simp only [payloads] at h
  intro x hx
  apply h x
  cases hr : run.result <;>
    simpa [generalRun, payloads, List.filterMap_append, hr, classifySteps, parseSteps] using hx

theorem responses_generalRun (r : Request) (w : Webhook) (ref : InstallationRef)
    (run : RetryRun) :
    responses (generalRun r w ref run) =
      (match run.result with
        | some err => [.http 500 "500 Internal Server Error: %s" [.str err]]
        | none => []) ++ [.http 200 "OK" []] := by
  have h := responses_retryActions r.ctx (hookFields w) ref w (r.Header "X-GitHub-Delivery")
    r.Body.data run.events
  simp only [responses] at h
  cases hr : run.result <;>
    simp [generalRun, responses, List.filterMap_append, h, hr, classifySteps, parseSteps,
      Action.response]

/-- C7: on a POST whose body is read and closed without error (the SCM client
being created), the parser is handed one body, a fresh reader that yields the
bytes of the original body without error, and every call of the general
handler, on every attempt of `retry`, receives exactly those bytes. -/
theorem body_replayed (o : HookOptions) (fuel : Nat) (r : Request)
    (hm : r.Method = MethodPost) (h1 : o.createSCMClient "" = none)
    (h2 : r.Body.readErr = none) (h3 : r.Body.closeErr = none) (hfuel : 122 ≤ fuel) :
    ∃ t, handleWebHookRequests o fuel r = some t ∧
      (∃ b, parsedBodies t = [b] ∧ b.data = r.Body.data ∧ b.readErr = none) ∧
      ∀ x ∈ payloads t, x = r.Body.data := by
  rcases hp : o.Parse (restored r) with ⟨w, e⟩
  cases e with
  | some err =>
    refine ⟨_, handle_parse_error o fuel r w err hm h1 h2 h3 hp, ⟨Body.nopCloser r.Body.data, ?_, rfl, rfl⟩, ?_⟩ <;>
      simp [parsedBodies, payloads, parseSteps]
  | none =>
    cases w with
    | none =>
      refine ⟨_, handle_parse_nil o fuel r hm h1 h2 h3 hp, ⟨Body.nopCloser r.Body.data, ?_, rfl, rfl⟩, ?_⟩ <;>
        simp [parsedBodies, payloads, parseSteps]
    | some w =>
      cases w with
      | installation h =>
        cases hi : h.Installation with
        | none =>
          refine ⟨_, handle_install_nil o fuel r h hm h1 h2 h3 hp hi,
            ⟨Body.nopCloser r.Body.data, ?_, rfl, rfl⟩, ?_⟩ <;>
            simp [parsedBodies, payloads, classifySteps, parseSteps]
        | some inst =>
          by_cases hid : inst.ID = 0
          · refine ⟨_, handle_install_zero o fuel r h inst hm h1 h2 h3 hp hi hid,
              ⟨Body.nopCloser r.Body.data, ?_, rfl, rfl⟩, ?_⟩ <;>
              simp [parsedBodies, payloads, classifySteps, parseSteps]
          · cases hh : o.onInstallHook r.ctx (installFields h inst) h with
            | none =>
              refine ⟨_, handle_install_ok o fuel r h inst hm h1 h2 h3 hp hi hid hh,
                ⟨Body.nopCloser r.Body.data, ?_, rfl, rfl⟩, ?_⟩ <;>
                simp [parsedBodies, payloads, classifySteps, parseSteps]
            | some err =>
              refine ⟨_, handle_install_error o fuel r h inst err hm h1 h2 h3 hp hi hid hh,
                ⟨Body.nopCloser r.Body.data, ?_, rfl, rfl⟩, ?_⟩ <;>
                simp [parsedBodies, payloads, classifySteps, parseSteps]
      | general kind repo ref =>
        by_cases hu : unroutable (.general kind repo ref)
        · refine ⟨_, handle_missing_ref o fuel r kind repo ref hm h1 h2 h3 hp hu,
            ⟨Body.nopCloser r.Body.data, ?_, rfl, rfl⟩, ?_⟩ <;>
            simp [parsedBodies, payloads, missingRefRun, classifySteps, parseSteps]
        · cases ref with
          | none => exact absurd trivial hu
          | some ref =>
            have hid : ref.ID ≠ 0 := hu
            obtain ⟨n, hn, _⟩ := retry_budget_returns
              (generalOperation o r (.general kind repo (some ref)) ref) o.env fuel hfuel
            have ht := handle_general o fuel r kind repo ref hm h1 h2 h3 hp hid
            rw [hn, Option.map_some'] at ht
            exact ⟨_, ht, ⟨Body.nopCloser r.Body.data, parsedBodies_generalRun r _ ref _, rfl,
              rfl⟩, payloads_generalRun r _ ref _⟩

/-- Witness of C7: a push event of installation 777 whose handler fails twice
and then succeeds. -/
theorem body_replayed_witness :
    postRequest.Method = MethodPost ∧
    (sampleOptions (some pushHook, none) none fun k => if k < 2 then some "unavailable" else none
      ).createSCMClient "" = none ∧
    postRequest.Body.readErr = none ∧ postRequest.Body.closeErr = none ∧ 122 ≤ 122 ∧
    ∃ t, handleWebHookRequests
        (sampleOptions (some pushHook, none) none fun k =>
          if k < 2 then some "unavailable" else none) 122 postRequest = some t ∧
      (∃ b, parsedBodies t = [b] ∧ b.data = postRequest.Body.data ∧ b.readErr = none) ∧
      ∀ x ∈ payloads t, x = postRequest.Body.data :=
  ⟨rfl, rfl, rfl, rfl, le_refl _, body_replayed _ 122 postRequest rfl rfl rfl rfl (le_refl _)⟩

/-- C1: the claim fails at a push event of installation 777 whose general
handler fails on every call: when `retry` gives up, the run writes the 500
response and then, not having returned, the response "OK" as well, so two
responses are written to the response writer. -/
theorem retry_exhaustion_writes_two_responses :
    (handleWebHookRequests (sampleOptions (some pushHook, none) none fun _ => some "unavailable")
        122 postRequest).map responses =
      some [.http 500 "500 Internal Server Error: %s" [.str "unavailable"],
        .http 200 "OK" []] := by
  decide

/-- C8: the claim fails at an installation-lifecycle event whose installation
ID is zero: the run writes the 500 response "missing installation ID" after a
debug and an info entry only, so no warning or error entry comes before it. -/
theorem missing_installation_id_not_logged :
    (handleWebHookRequests
        (sampleOptions (some (.installation installHookZero), none) none fun _ => none)
        0 postRequest).map (fun t => (responses t, errorsLogged false t)) =
      some ([.http 500 "500 Internal Server Error: missing installation ID" []], false) := by
  decide

/-! ## The claims on `retry` -/

theorem getRandomValueFromInterval_mono (r₁ r₂ c₁ c₂ : Nat)
    (hr : r₁ % 2 ^ 53 ≤ r₂ % 2 ^ 53) (hc : c₁ ≤ c₂) :
    getRandomValueFromInterval r₁ c₁ ≤ getRandomValueFromInterval r₂ c₂ := by
  unfold getRandomValueFromInterval
  apply Nat.div_le_div_right
  gcongr

theorem delays_sorted (env : RetryEnv)
    (hr : ∀ i, env.random i % 2 ^ 53 ≤ env.random (i + 1) % 2 ^ 53) (n : Nat) :
    ((List.range n).map (delayAt env)).Sorted (· ≤ ·) := by
  have hmono : Monotone (delayAt env) :=
    monotone_nat_of_le_succ fun i =>
      getRandomValueFromInterval_mono _ _ _ _ (hr i) (intervalAt_mono i)
  exact (List.pairwise_lt_range n).map _ fun a b hab => hmono (le_of_lt hab)

theorem retryNotify_unbounded (f : Nat → Option Error) (env : RetryEnv)
    (hfail : ∀ k, (f k).isSome) :
    ∀ (fuel call now currentInterval : Nat),
      RetryNotify 0 f env fuel call now currentInterval = none := by
  intro fuel
  induction fuel with
  | zero => intro call now currentInterval; rfl
  | succ fuel ih =>
    intro call now currentInterval
    obtain ⟨err, hf⟩ := Option.isSome_iff_exists.mp (hfail call)
    rw [RetryNotify]
    simp [hf, NextBackOff, ih]

/-- C5, as stated, fails twice. With a budget of 30s and a first call that
fails after 31s, `retry` returns that error after one call although the second
call would succeed. And with two failures followed by a success inside the
budget, the random source may draw a high sample and then a low one: the
delays passed to the notify function are then 750ms followed by 375ms. -/
theorem retry_success_counterexample :
    (retry 30000000000 (fun k => if k < 1 then some "unavailable" else none)
        ⟨fun _ => 31000000000, fun _ => 0⟩ 122).map (fun run => (run.result, run.calls)) =
      some (some "unavailable", 1) ∧
    (retry 30000000000 (fun k => if k < 2 then some "unavailable" else none)
        ⟨fun _ => 0, fun k => if k = 0 then 2 ^ 53 - 1 else 0⟩ 122).map
        (fun run => (run.result, run.calls, run.delays)) =
      some (none, 3, [750000000, 375000000]) := by
  decide

/-- C5, amended: when the operation fails on its first `N` calls and succeeds
on call `N + 1`, and the elapsed time at the end of each failed call is within
`maxElapsedTime` (or `maxElapsedTime` is zero), `retry` returns success after
exactly `N + 1` calls and notifies exactly `N` times. The `i`-th delay is drawn
around the `i`-th interval of a non-decreasing sequence, between half and one
and a half times that interval (to the nanosecond); the delays themselves are
non-decreasing when the random samples are. -/
theorem retry_succeeds_within_budget (maxElapsedTime : Int) (f : Nat → Option Error)
    (env : RetryEnv) (N fuel : Nat)
    (hfail : ∀ i, i < N → (f i).isSome) (hok : f N = none)
    (hbudget : ∀ i, i < N → maxElapsedTime = 0 ∨ (endAt env i : Int) ≤ maxElapsedTime)
    (hfuel : N < fuel) :
    ∃ run, retry maxElapsedTime f env fuel = some run ∧ run.result = none ∧
      run.calls = N + 1 ∧ run.delays.length = N ∧
      run.delays = (List.range N).map (delayAt env) ∧
      (∀ i, intervalAt i ≤ intervalAt (i + 1)) ∧
      (∀ i, intervalAt i ≤ 2 * delayAt env i + 1 ∧ 2 * delayAt env i ≤ 3 * intervalAt i + 1) ∧
      ((∀ i, env.random i % 2 ^ 53 ≤ env.random (i + 1) % 2 ^ 53) →
        run.delays.Sorted (· ≤ ·)) := by
  have h := retryNotify_schedule maxElapsedTime f env N 0 fuel hfuel
    (fun i hi => by
      rw [Nat.zero_add]
      refine ⟨hfail i hi, fun hb => ?_⟩
      rcases hbudget i hi with h0 | hle
      · exact hb.1 h0
      · exact absurd hb.2 (not_lt.mpr hle))
    (by rw [Nat.zero_add]; exact Or.inl hok)
  rw [Nat.zero_add] at h
  have hd : RetryRun.delays ⟨f N, schedule f env 0 N⟩ = (List.range N).map (delayAt env) := by
    rw [schedule_delays]
    exact List.map_congr_left fun i _ => by rw [Nat.zero_add]
  refine ⟨⟨f N, schedule f env 0 N⟩, h, hok, schedule_calls f env _ N 0, ?_, hd,
    intervalAt_mono, fun i => getRandomValueFromInterval_bounds _ _, fun hr => ?_⟩
  · rw [hd]; simp
  · rw [hd]; exact delays_sorted env hr N

/-- Witness of C5: two failures, then a success, on a clock where the handler
takes no time. -/
theorem retry_succeeds_within_budget_witness :
    (∀ i, i < 2 → ((fun k => if k < 2 then some "unavailable" else none : Nat → Option Error)
      i).isSome) ∧
    (fun k => if k < 2 then some "unavailable" else none : Nat → Option Error) 2 = none ∧
    (∀ i, i < 2 → (30000000000 : Int) = 0 ∨ (endAt instantEnv i : Int) ≤ 30000000000) ∧
    2 < 3 ∧
    ∃ run, retry 30000000000 (fun k => if k < 2 then some "unavailable" else none)
        instantEnv 3 = some run ∧ run.result = none ∧
      run.calls = 2 + 1 ∧ run.delays.length = 2 ∧
      run.delays = (List.range 2).map (delayAt instantEnv) ∧
      (∀ i, intervalAt i ≤ intervalAt (i + 1)) ∧
      (∀ i, intervalAt i ≤ 2 * delayAt instantEnv i + 1 ∧
        2 * delayAt instantEnv i ≤ 3 * intervalAt i + 1) ∧
      ((∀ i, instantEnv.random i % 2 ^ 53 ≤ instantEnv.random (i + 1) % 2 ^ 53) →
        run.delays.Sorted (· ≤ ·)) :=
  have hfail : ∀ i, i < 2 →
      ((fun k => if k < 2 then some "unavailable" else none : Nat → Option Error) i).isSome :=
    fun i hi => by simp [hi]
  have hbudget : ∀ i, i < 2 →
      (30000000000 : Int) = 0 ∨ (endAt instantEnv i : Int) ≤ 30000000000 :=
    fun i hi => by
      interval_cases i
      · exact Or.inr (by decide)
      · exact Or.inr (by decide)
  ⟨hfail, rfl, hbudget, by decide,
    retry_succeeds_within_budget 30000000000 _ instantEnv 2 3 hfail rfl hbudget (by decide)⟩

/-- C6, as stated, fails twice. With `maxElapsedTime` zero the elapsed-time
bound is off and `retry` never returns for an operation that always fails. And
with the budget of 30s the elapsed time is checked only when a call has failed:
the call that fails at 28.3s is followed by a backoff of 14.4s, and a twelfth
call starts at 42.7s, after the budget is exceeded. -/
theorem retry_exhaustion_counterexample :
    (∀ fuel, retry 0 (fun _ => some "unavailable") instantEnv fuel = none) ∧
    (retry 30000000000 (fun _ => some "unavailable") instantEnv 122).map
        (fun run => (run.result, run.calls, run.events.getLast?)) =
      some (some "unavailable", 12,
        some (.attempt 11 42748779295 42748779295 (some "unavailable"))) :=
  ⟨fun fuel => retryNotify_unbounded (fun _ => some "unavailable") instantEnv (fun _ => rfl)
      fuel 0 0 DefaultInitialInterval,
    by decide⟩

/-- C6, amended: for an operation that always fails and a `maxElapsedTime`
other than zero, `retry` returns the error of its last call. It checks the
elapsed time when a call has failed, before the backoff: every call but the
last ends within `maxElapsedTime`, and the last is the first to end beyond it.
On the general-event path, where `maxElapsedTime` is 30 seconds, the first
response the handler then writes has status 500. -/
theorem retry_exhaustion_returns_last_error (maxElapsedTime : Int) (f : Nat → Option Error)
    (env : RetryEnv) (fuel : Nat) (hmax : maxElapsedTime ≠ 0) (hfail : ∀ k, (f k).isSome)
    (hfuel : maxElapsedTime.toNat / 250000000 + 1 < fuel) :
    (∃ run n, retry maxElapsedTime f env fuel = some run ∧
      run.events = schedule f env 0 n ∧ run.calls = n + 1 ∧
      run.result = f n ∧ run.result.isSome ∧
      maxElapsedTime < (endAt env n : Int) ∧
      ∀ i, i < n → (endAt env i : Int) ≤ maxElapsedTime) ∧
    (∀ (o : HookOptions) (r : Request) (kind : String) (repo : Repository)
      (ref : InstallationRef),
      r.Method = MethodPost → o.createSCMClient "" = none → r.Body.readErr = none →
      r.Body.closeErr = none →
      o.Parse (restored r) = (some (.general kind repo (some ref)), none) → ref.ID ≠ 0 →
      maxElapsedTime = 30000000000 → o.env = env →
      generalOperation o r (.general kind repo (some ref)) ref = f →
      ∃ t, handleWebHookRequests o fuel r = some t ∧
        ((responses t).head?).bind Response.status = some 500) := by
  obtain ⟨n, _, hn, hgo, hstop⟩ := retry_returns maxElapsedTime f env fuel hmax hfuel
  have hb : budgetExceeded maxElapsedTime env n := by
    rcases hstop with h | h
    · have := hfail n
      rw [h] at this
      exact absurd this (by simp)
    · exact h
  refine ⟨⟨⟨f n, schedule f env 0 n⟩, n, hn, rfl, schedule_calls f env _ n 0, rfl, hfail n,
    hb.2, fun i hi => ?_⟩, ?_⟩
  · by_contra hlt
    exact (hgo i hi).2 ⟨hmax, not_le.mp hlt⟩
  · intro o r kind repo ref hm h1 h2 h3 hp hid h30 henv hop
    have ht := handle_general o fuel r kind repo ref hm h1 h2 h3 hp hid
    rw [henv, hop, ← h30, hn, Option.map_some'] at ht
    refine ⟨_, ht, ?_⟩
    obtain ⟨err, herr⟩ := Option.isSome_iff_exists.mp (hfail n)
    rw [responses_generalRun]
    simp [herr, Response.status]

/-- Witness of C6: an operation that always fails, under the budget of 30s. -/
theorem retry_exhaustion_returns_last_error_witness :
    (30000000000 : Int) ≠ 0 ∧
    (∀ k, ((fun _ => some "unavailable" : Nat → Option Error) k).isSome) ∧
    (30000000000 : Int).toNat / 250000000 + 1 < 122 ∧
    (∃ run n, retry 30000000000 (fun _ => some "unavailable") instantEnv 122 = some run ∧
      run.events = schedule (fun _ => some "unavailable") instantEnv 0 n ∧ run.calls = n + 1 ∧
      run.result = (fun _ => some "unavailable" : Nat → Option Error) n ∧ run.result.isSome ∧
      (30000000000 : Int) < (endAt instantEnv n : Int) ∧
      ∀ i, i < n → (endAt instantEnv i : Int) ≤ 30000000000) ∧
    (∀ (o : HookOptions) (r : Request) (kind : String) (repo : Repository)
      (ref : InstallationRef),
      r.Method = MethodPost → o.createSCMClient "" = none → r.Body.readErr = none →
      r.Body.closeErr = none →
      o.Parse (restored r) = (some (.general kind repo (some ref)), none) → ref.ID ≠ 0 →
      (30000000000 : Int) = 30000000000 → o.env = instantEnv →
      generalOperation o r (.general kind repo (some ref)) ref = (fun _ => some "unavailable") →
      ∃ t, handleWebHookRequests o 122 r = some t ∧
        ((responses t).head?).bind Response.status = some 500) :=
  ⟨by decide, fun _ => rfl, by decide,
    retry_exhaustion_returns_last_error 30000000000 (fun _ => some "unavailable") instantEnv 122
      (by decide) (fun _ => rfl) (by decide)⟩

/-- C10, as stated, fails: the request context is cancelled one nanosecond
after `retry` starts, the general handler keeps failing, and eleven more calls
are made after the cancellation, the last of them 42.7s after the start. -/
theorem cancellation_not_observed :
    cancelledRequest.ctx.doneAt = some 1 ∧
    (handleWebHookRequests (sampleOptions (some pushHook, none) none fun _ => some "unavailable")
        122 cancelledRequest).map attemptStarts =
      some [0, 250000000, 625000000, 1187500000, 2031250000, 3296875000, 5195312500,
        8042968750, 12314453125, 18721679687, 28332519530, 42748779295] := by
  decide

/-- C10, amended: on the general-event path `retry` is not given the request
context, which only the general handler receives. With a handler that keeps
failing, whatever the context and whenever it is cancelled, the calls follow
the backoff schedule of the clock and the random source alone, every call but
the last ends within the 30 seconds, and `retry` returns only when a call has
ended beyond them, hence after any cancellation that came within them. -/
theorem retry_runs_through_cancellation (o : HookOptions) (fuel : Nat) (r : Request)
    (kind : String) (repo : Repository) (ref : InstallationRef)
    (hm : r.Method = MethodPost) (h1 : o.createSCMClient "" = none)
    (h2 : r.Body.readErr = none) (h3 : r.Body.closeErr = none)
    (hp : o.Parse (restored r) = (some (.general kind repo (some ref)), none))
    (hid : ref.ID ≠ 0)
    (hfail : ∀ k, (generalOperation o r (.general kind repo (some ref)) ref k).isSome)
    (hfuel : 122 ≤ fuel) :
    ∃ t n, handleWebHookRequests o fuel r = some t ∧
      attemptStarts t = (List.range (n + 1)).map (startAt o.env) ∧
      (∀ i, i < n → (endAt o.env i : Int) ≤ 30000000000) ∧
      (30000000000 : Int) < (endAt o.env n : Int) ∧
      ∀ c, r.ctx.doneAt = some c → (c : Int) ≤ 30000000000 → c < endAt o.env n := by
  obtain ⟨n, hn, hgo, hstop⟩ := retry_budget_returns
    (generalOperation o r (.general kind repo (some ref)) ref) o.env fuel hfuel
  have hb : budgetExceeded 30000000000 o.env n := by
    rcases hstop with h | h
    · have := hfail n
      rw [h] at this
      exact absurd this (by simp)
    · exact h
  have ht := handle_general o fuel r kind repo ref hm h1 h2 h3 hp hid
  rw [hn, Option.map_some'] at ht
  refine ⟨_, n, ht, ?_, fun i hi => ?_, hb.2, fun c _ hc => ?_⟩
  · have hs := attemptStarts_schedule r.ctx (hookFields (.general kind repo (some ref))) ref
      (.general kind repo (some ref)) (r.Header "X-GitHub-Delivery") r.Body.data
      (generalOperation o r (.general kind repo (some ref)) ref) o.env n 0
    simp only [Nat.zero_add] at hs
    simp only [attemptStarts] at hs
    cases hres : generalOperation o r (.general kind repo (some ref)) ref n <;>
      simp [generalRun, attemptStarts, List.filterMap_append, hs, hres, classifySteps,
        parseSteps]
  · by_contra hlt
    exact (hgo i hi).2 ⟨by norm_num, not_le.mp hlt⟩
  · have := hb.2
    omega

/-- Witness of C10: the delivery whose context is cancelled one nanosecond
after `retry` starts, with a general handler that keeps failing. -/
theorem retry_runs_through_cancellation_witness :
    cancelledRequest.Method = MethodPost ∧
    (sampleOptions (some pushHook, none) none fun _ => some "unavailable").createSCMClient ""
      = none ∧
    cancelledRequest.Body.readErr = none ∧ cancelledRequest.Body.closeErr = none ∧
    (sampleOptions (some pushHook, none) none fun _ => some "unavailable").Parse
      (restored cancelledRequest) = (some (.general "push" ⟨"acme/widgets"⟩ (some ⟨777⟩)), none) ∧
    (⟨777⟩ : InstallationRef).ID ≠ 0 ∧
    (∀ k, (generalOperation (sampleOptions (some pushHook, none) none fun _ => some "unavailable")
      cancelledRequest (.general "push" ⟨"acme/widgets"⟩ (some ⟨777⟩)) ⟨777⟩ k).isSome) ∧
    122 ≤ 122 ∧
    ∃ t n, handleWebHookRequests
        (sampleOptions (some pushHook, none) none fun _ => some "unavailable") 122
        cancelledRequest = some t ∧
      attemptStarts t = (List.range (n + 1)).map
        (startAt (sampleOptions (some pushHook, none) none fun _ => some "unavailable").env) ∧
      (∀ i, i < n →
        (endAt (sampleOptions (some pushHook, none) none fun _ => some "unavailable").env i : Int)
          ≤ 30000000000) ∧
      (30000000000 : Int) <
        (endAt (sampleOptions (some pushHook, none) none fun _ => some "unavailable").env n
          : Int) ∧
      ∀ c, cancelledRequest.ctx.doneAt = some c → (c : Int) ≤ 30000000000 →
        c < endAt (sampleOptions (some pushHook, none) none fun _ => some "unavailable").env n :=
  ⟨rfl, rfl, rfl, rfl, rfl, by decide, fun _ => rfl, le_refl _,
    retry_runs_through_cancellation _ 122 cancelledRequest "push" ⟨"acme/widgets"⟩ ⟨777⟩
      rfl rfl rfl rfl rfl (by decide) (fun _ => rfl) (le_refl _)⟩

end Hook
